import Mathlib

/-!
Verification development for the `v_search` repository (file `src/vector.py`).

The program is Python 2.  This matters to the embedding in three places:
* `N / DOC_FREQ[word]` in `idf` is integer floor division (both operands are
  Python ints), modelled with `Nat` division;
* `print` / `raw_input` / the builtin `reduce` are Python-2-only and are
  modelled away (input is a parameter, printed outcomes are return values);
* division by zero and `math.log(0, 2)` raise exceptions, modelled with
  `Except`.

Python runtime conventions embedded here:
* dicts are association lists with unique keys, first match wins on lookup,
  assignment (`dictSet`) overwrites in place or appends;
* `defaultdict` reads (`REV_INDEX[w]`, `DOC_FREQ[w]`, `LENGTH[d]`) return the
  stored value, or the default when the key is absent.  The value view is
  `pyLookup .. |>.getD default`; the storage side effect (a missing key is
  inserted with the default value) is modelled separately by `dGet` and the
  state-passing variants (`idfS`, `importanceS`, ..., `searchS`) used for the
  frame claim;
* term ids and document ids (strings in Python, used only through equality)
  are modelled as naturals; raw term frequencies are naturals (the spec fixes
  them non-negative);
* Python floats are modelled as real numbers.
-/

/-- Python dict lookup: first entry with the given key, if any. -/
def pyLookup {α β : Type} [DecidableEq α] (k : α) : List (α × β) → Option β
  | [] => none
  | p :: rest => if p.1 = k then some p.2 else pyLookup k rest

/-- Python dict assignment `m[k] = v`: overwrite the entry in place, or append
a new entry at the end. -/
def dictSet {α β : Type} [DecidableEq α] : List (α × β) → α → β → List (α × β)
  | [], k, v => [(k, v)]
  | p :: rest, k, v => if p.1 = k then (k, v) :: rest else p :: dictSet rest k v

/-- The in-memory index of `vector.py` after startup: the corpus size `N` and
the five global tables (`WORDS_DICTIONARY`, `REV_INDEX`, `DOC_FREQ`, `LENGTH`,
`DOCS`), each a Python dict modelled as an association list. -/
structure Store where
  N : ℕ
  WORDS_DICTIONARY : List (String × ℕ)
  REV_INDEX : List (ℕ × List (ℕ × ℕ))
  DOC_FREQ : List (ℕ × ℕ)
  LENGTH : List (ℕ × ℝ)
  DOCS : List (String × ℕ)

/-- The list `WORDS_DICTIONARY.values()`: one value per dict entry. -/
def vocabValues (st : Store) : List ℕ := st.WORDS_DICTIONARY.map Prod.snd

/-- The list `DOCS.values()`. -/
def docsValues (st : Store) : List ℕ := st.DOCS.map Prod.snd

/-- Value view of the defaultdict read `REV_INDEX[t]` (default `{}`). -/
def revGet (st : Store) (t : ℕ) : List (ℕ × ℕ) := (pyLookup t st.REV_INDEX).getD []

/-- Value view of the defaultdict read `DOC_FREQ[t]` (default `0`). -/
def docFreqGet (st : Store) (t : ℕ) : ℕ := (pyLookup t st.DOC_FREQ).getD 0

/-- Value view of the defaultdict read `LENGTH[d]` (default `0.0`). -/
def lengthGet (st : Store) (d : ℕ) : ℝ := (pyLookup d st.LENGTH).getD 0

/-- Exceptions the arithmetic of `vector.py` can raise: `ZeroDivisionError`
(int division by zero, float division by zero) and `ValueError` (the
`math domain error` of `math.log(0, 2)`). -/
inductive PyErr where
  | zeroDivisionError
  | valueError
deriving DecidableEq

/-- The function `idf` (vector.py lines 127-136).  `word in
WORDS_DICTIONARY.values()` guards the computation; `math.log(N /
DOC_FREQ[word], 2)` divides the Python 2 ints with floor division, raising
`ZeroDivisionError` when `DOC_FREQ[word] == 0` and `ValueError` when the
quotient is `0` (i.e. `N < DOC_FREQ[word]`). -/
noncomputable def idf (st : Store) (w : ℕ) : Except PyErr ℝ :=
  if w ∈ vocabValues st then
    if docFreqGet st w = 0 then Except.error PyErr.zeroDivisionError
    else if st.N / docFreqGet st w = 0 then Except.error PyErr.valueError
    else Except.ok (Real.logb 2 ((st.N / docFreqGet st w : ℕ) : ℝ))
  else Except.ok 0

/-- The function `importance` (vector.py lines 114-124): `REV_INDEX[word][doc_id]
* idf(word)` when the posting exists, else `0.0`. -/
noncomputable def importance (st : Store) (w d : ℕ) : Except PyErr ℝ :=
  match pyLookup d (revGet st w) with
  | some f => (idf st w).map (fun i => (f : ℝ) * i)
  | none => Except.ok 0

/-- One iteration of the loop in `cos_similarity` (vector.py lines 156-158):
`if word in WORDS_DICTIONARY.values(): similarity += idf(word) *
importance(word, doc_id)` (Python evaluates `idf` first, then `importance`). -/
noncomputable def simTerm (st : Store) (d : ℕ) (acc : ℝ) (w : ℕ) : Except PyErr ℝ :=
  if w ∈ vocabValues st then
    match idf st w with
    | Except.error e => Except.error e
    | Except.ok i =>
      match importance st w d with
      | Except.error e => Except.error e
      | Except.ok imp => Except.ok (acc + i * imp)
  else Except.ok acc

/-- The `for word in query` loop of `cos_similarity`, accumulating
`similarity`. -/
noncomputable def simLoop (st : Store) (d : ℕ) : ℝ → List ℕ → Except PyErr ℝ
  | acc, [] => Except.ok acc
  | acc, w :: rest =>
    match simTerm st d acc w with
    | Except.error e => Except.error e
    | Except.ok acc2 => simLoop st d acc2 rest

/-- The function `cos_similarity` (vector.py lines 148-160): the accumulated
similarity divided by `LENGTH[doc_id]`; the float division raises
`ZeroDivisionError` when `LENGTH[doc_id] == 0.0`. -/
noncomputable def cos_similarity (st : Store) (q : List ℕ) (d : ℕ) : Except PyErr ℝ :=
  match simLoop st d 0 q with
  | Except.error e => Except.error e
  | Except.ok s =>
    if lengthGet st d = 0 then Except.error PyErr.zeroDivisionError
    else Except.ok (s / lengthGet st d)

/-- The function `intersection` (vector.py lines 139-145):
`reduce(set.intersection, sets)`, a left fold from the first set.  Python 2
`reduce` raises `TypeError` on an empty list; `search` only calls it with a
non-empty one, and the `[]` case here is junk. -/
def intersection (sets : List (Finset ℕ)) : Finset ℕ :=
  match sets with
  | [] => ∅
  | s :: rest => rest.foldl (fun a b => a ∩ b) s

/-- The expression `set(REV_INDEX[term].keys())` (vector.py line 183). -/
def postingDocs (st : Store) (t : ℕ) : Finset ℕ := ((revGet st t).map Prod.fst).toFinset

/-- The candidate set of `search` (vector.py lines 182-183):
`intersection([set(REV_INDEX[term].keys()) for term in query])`. -/
def relevant_docs (st : Store) (q : List ℕ) : Finset ℕ :=
  intersection (q.map (fun t => postingDocs st t))

/-- Python `term.strip(characters)`: drop characters of the set from both
ends. -/
def pyStrip (chars : List Char) (s : String) : String :=
  String.mk (((s.toList.dropWhile (fun c => chars.contains c)).reverse.dropWhile
    (fun c => chars.contains c)).reverse)

/-- Python `s.lower()` (ASCII). -/
def pyLower (s : String) : String := String.mk (s.toList.map Char.toLower)

/-- Python `s.split()` with no argument: split on runs of whitespace,
dropping empty pieces.  `cur` holds the current piece reversed. -/
def pySplitAux : List Char → List Char → List String
  | [], [] => []
  | [], cur => [String.mk cur.reverse]
  | c :: rest, cur =>
    if c.isWhitespace then
      match cur with
      | [] => pySplitAux rest []
      | _ => String.mk cur.reverse :: pySplitAux rest []
    else pySplitAux rest (c :: cur)

/-- The function `tokenize` (vector.py lines 197-205): lowercase, split on
whitespace, strip the fixed punctuation set from both ends of each piece. -/
def tokenize (inp : String) : List String :=
  let characters : List Char :=
    [' ', '.', ',', '!', '#', '$', '%', '^', '&', '*', '(', ')', ';', ':',
     '\n', '\t', '\\', '\"', '?', '!', Char.ofNat 123, Char.ofNat 125,
     '[', ']', '<', '>']
  (pySplitAux (pyLower inp).toList []).map (fun t => pyStrip characters t)

/-- The resolution loop of `search` (vector.py lines 169-177): tokens absent
from `WORDS_DICTIONARY.keys()` are dropped (the source also prints an
"Ignoring" line for each), the rest are mapped to `WORDS_DICTIONARY[token]`,
in order. -/
def resolveQuery (st : Store) : List String → List ℕ
  | [] => []
  | w :: rest =>
    match pyLookup w st.WORDS_DICTIONARY with
    | some t => t :: resolveQuery st rest
    | none => resolveQuery st rest

/-- Outcomes `search` reports: the "No doc matched all query terms." message,
or the ranked `score: filename` lines (vector.py lines 184-194). -/
inductive SearchOutcome where
  | noMatch
  | ranked : List (ℝ × String) → SearchOutcome

/-- Ways a query leaves `search` abnormally: `sys.exit()` (a `SystemExit`
ending the process, vector.py line 180), an arithmetic exception from
scoring, or a `KeyError` from `docs_reverse[doc_id]` (line 194). -/
inductive SearchErr where
  | systemExit
  | pyErr : PyErr → SearchErr
  | keyError

/-- The comprehension `[(doc_id, cos_similarity(query, doc_id)) for doc_id in
relevant_docs]` (vector.py lines 187-188); the first exception propagates.
Python iterates the set in unspecified order; callers pass the candidates
sorted by id as the canonical order. -/
noncomputable def scoreDocs (st : Store) (q : List ℕ) : List ℕ → Except PyErr (List (ℕ × ℝ))
  | [] => Except.ok []
  | d :: rest =>
    match cos_similarity st q d with
    | Except.error e => Except.error e
    | Except.ok s =>
      match scoreDocs st q rest with
      | Except.error e => Except.error e
      | Except.ok tail => Except.ok ((d, s) :: tail)

/-- The `sorted(..., key=lambda doc: doc[1], reverse=True)` call (vector.py
lines 187-190): stable sort by score, descending. -/
noncomputable def rankScores (xs : List (ℕ × ℝ)) : List (ℕ × ℝ) :=
  xs.mergeSort (fun a b => decide (b.2 ≤ a.2))

/-- The local `docs_reverse = dict(map(reversed, DOCS.items()))` (line 191). -/
def docs_reverse (st : Store) : List (ℕ × String) :=
  st.DOCS.foldl (fun m p => dictSet m p.2 p.1) []

/-- The printing loop of `search` (vector.py lines 192-194): each scored doc
id is translated through `docs_reverse`; a plain dict subscript, so an id
absent from `DOCS.values()` raises `KeyError`. -/
def emitNames (st : Store) : List (ℕ × ℝ) → Except SearchErr (List (ℝ × String))
  | [] => Except.ok []
  | p :: rest =>
    match pyLookup p.1 (docs_reverse st) with
    | none => Except.error SearchErr.keyError
    | some name =>
      match emitNames st rest with
      | Except.error e => Except.error e
      | Except.ok out => Except.ok ((p.2, name) :: out)

/-- The function `search` (vector.py lines 163-194), with the `raw_input`
text as a parameter and the printed outcome as the return value.  An empty
resolved query triggers `sys.exit()`; an empty intersection prints the
no-match message and returns normally; otherwise all candidates are scored,
ranked, and emitted. -/
noncomputable def search (st : Store) (input : String) : Except SearchErr SearchOutcome :=
  let query := resolveQuery st (tokenize input)
  if query = [] then Except.error SearchErr.systemExit
  else
    let rel := relevant_docs st query
    if rel = ∅ then Except.ok SearchOutcome.noMatch
    else
      match scoreDocs st query (rel.sort (fun a b => a ≤ b)) with
      | Except.error e => Except.error (SearchErr.pyErr e)
      | Except.ok scored =>
        match emitNames st (rankScores scored) with
        | Except.error e => Except.error e
        | Except.ok out => Except.ok (SearchOutcome.ranked out)

/-- The function `init_no_docs` (vector.py lines 29-38) applied to the parsed
document id file: the number of lines. -/
def init_no_docs (lines : List (String × ℕ)) : ℕ := lines.length

/-- The function `init_docs_dict` (vector.py lines 80-91) applied to the same
parsed lines: `DOCS[name] = id` per line, duplicates overwriting. -/
def init_docs_dict (lines : List (String × ℕ)) : List (String × ℕ) :=
  lines.foldl (fun m p => dictSet m p.1 p.2) []

/-- The function `init_doc_freq` (vector.py lines 94-100): `DOC_FREQ[w] =
len(REV_INDEX[w])` for every `w` in `WORDS_DICTIONARY.values()`.  (The
`REV_INDEX[w]` reads also insert empty entries for vocabulary terms missing
from the postings table; that storage effect is covered by the state-passing
model below.) -/
def init_doc_freq (st : Store) : Store :=
  { st with DOC_FREQ :=
      (vocabValues st).foldl (fun m w => dictSet m w (revGet st w).length) st.DOC_FREQ }

/-- Value of `idf` when it does not raise: `log2` of the floor quotient for
vocabulary terms, `0.0` otherwise (same source lines as `idf`). -/
noncomputable def idfVal (st : Store) (w : ℕ) : ℝ :=
  if w ∈ vocabValues st then Real.logb 2 ((st.N / docFreqGet st w : ℕ) : ℝ) else 0

/-- Value of `importance` when it does not raise (same source lines as
`importance`). -/
noncomputable def importanceVal (st : Store) (w d : ℕ) : ℝ :=
  match pyLookup d (revGet st w) with
  | some f => (f : ℝ) * idfVal st w
  | none => 0

/-- The body of the `init_lengths` loop for one document (vector.py lines
107-111): `sqrt` of the sum of `importance(word, doc_id) ** 2` over
`WORDS_DICTIONARY.values()`. -/
noncomputable def docLength (st : Store) (d : ℕ) : ℝ :=
  Real.sqrt (((vocabValues st).map (fun w => importanceVal st w d ^ 2)).sum)

/-- The function `init_lengths` (vector.py lines 103-111): `LENGTH[doc_id]`
is assigned for every `doc_id` in `DOCS.values()`. -/
noncomputable def init_lengths (st : Store) : Store :=
  { st with LENGTH :=
      (docsValues st).foldl (fun m d => dictSet m d (docLength st d)) st.LENGTH }

/-- A term on which `simTerm` cannot raise: if it is a vocabulary term, its
`DOC_FREQ` entry is non-zero and the floor quotient is non-zero. -/
def termFine (st : Store) (w : ℕ) : Prop :=
  w ∈ vocabValues st → docFreqGet st w ≠ 0 ∧ st.N / docFreqGet st w ≠ 0

instance (st : Store) (w : ℕ) : Decidable (termFine st w) := by
  unfold termFine; infer_instance

/-- The spec's weighting formula, written with a real-valued quotient:
`inverseDocumentFrequency(termID) = log2(N / DocumentFrequency[termID])`.
Modelled from the spec's words for comparison with the source's `idf`. -/
noncomputable def spec_inverseDocumentFrequency (st : Store) (w : ℕ) : ℝ :=
  Real.logb 2 ((st.N : ℝ) / (docFreqGet st w : ℝ))

/-- Storage side of a defaultdict subscript `m[k]`: the value read, plus the
table afterwards (unchanged when the key is present; extended with
`(k, default)` when not, Python inserting missing keys on read). -/
def dGet {β : Type} (m : List (ℕ × β)) (dflt : β) (k : ℕ) : β × List (ℕ × β) :=
  match pyLookup k m with
  | some v => (v, m)
  | none => (dflt, m ++ [(k, dflt)])

/-- State-passing `idf`: same source lines, with the `DOC_FREQ[word]`
defaultdict read threading the table. -/
noncomputable def idfS (st : Store) (w : ℕ) : Except PyErr ℝ × Store :=
  if w ∈ vocabValues st then
    match dGet st.DOC_FREQ 0 w with
    | (df, tbl) =>
      let st1 := { st with DOC_FREQ := tbl }
      if df = 0 then (Except.error PyErr.zeroDivisionError, st1)
      else if st.N / df = 0 then (Except.error PyErr.valueError, st1)
      else (Except.ok (Real.logb 2 ((st.N / df : ℕ) : ℝ)), st1)
  else (Except.ok 0, st)

/-- State-passing `importance`: the guard `doc_id in REV_INDEX[word]` performs
the defaultdict read of `REV_INDEX[word]` (the second subscript on the hit
branch then finds the key present and has no further storage effect). -/
noncomputable def importanceS (st : Store) (w d : ℕ) : Except PyErr ℝ × Store :=
  match dGet st.REV_INDEX [] w with
  | (inner, tbl) =>
    let st1 := { st with REV_INDEX := tbl }
    match pyLookup d inner with
    | some f =>
      match idfS st1 w with
      | (Except.error e, st2) => (Except.error e, st2)
      | (Except.ok i, st2) => (Except.ok ((f : ℝ) * i), st2)
    | none => (Except.ok 0, st1)

/-- State-passing variant of `simTerm`. -/
noncomputable def simTermS (st : Store) (d : ℕ) (acc : ℝ) (w : ℕ) :
    Except PyErr ℝ × Store :=
  if w ∈ vocabValues st then
    match idfS st w with
    | (Except.error e, st1) => (Except.error e, st1)
    | (Except.ok i, st1) =>
      match importanceS st1 w d with
      | (Except.error e, st2) => (Except.error e, st2)
      | (Except.ok imp, st2) => (Except.ok (acc + i * imp), st2)
  else (Except.ok acc, st)

/-- State-passing variant of `simLoop`. -/
noncomputable def simFoldS (d : ℕ) : Store → ℝ → List ℕ → Except PyErr ℝ × Store
  | st, acc, [] => (Except.ok acc, st)
  | st, acc, w :: rest =>
    match simTermS st d acc w with
    | (Except.error e, st1) => (Except.error e, st1)
    | (Except.ok acc2, st1) => simFoldS d st1 acc2 rest

/-- State-passing variant of `cos_similarity`: the `LENGTH[doc_id]` read is
also a defaultdict subscript. -/
noncomputable def cos_similarityS (st : Store) (q : List ℕ) (d : ℕ) :
    Except PyErr ℝ × Store :=
  match simFoldS d st 0 q with
  | (Except.error e, st1) => (Except.error e, st1)
  | (Except.ok s, st1) =>
    match dGet st1.LENGTH 0 d with
    | (len, tbl) =>
      let st2 := { st1 with LENGTH := tbl }
      if len = 0 then (Except.error PyErr.zeroDivisionError, st2)
      else (Except.ok (s / len), st2)

/-- State-passing form of the candidate-set comprehension
`[set(REV_INDEX[term].keys()) for term in query]` (vector.py line 183). -/
def revKeySetsS : Store → List ℕ → List (Finset ℕ) × Store
  | st, [] => ([], st)
  | st, t :: rest =>
    match dGet st.REV_INDEX [] t with
    | (inner, tbl) =>
      let st1 := { st with REV_INDEX := tbl }
      match revKeySetsS st1 rest with
      | (sets, st2) => ((inner.map Prod.fst).toFinset :: sets, st2)

/-- State-passing form of the scoring comprehension (vector.py lines
187-188). -/
noncomputable def scoreLoopS (q : List ℕ) :
    Store → List ℕ → Except PyErr (List (ℕ × ℝ)) × Store
  | st, [] => (Except.ok [], st)
  | st, d :: rest =>
    match cos_similarityS st q d with
    | (Except.error e, st1) => (Except.error e, st1)
    | (Except.ok s, st1) =>
      match scoreLoopS q st1 rest with
      | (Except.error e, st2) => (Except.error e, st2)
      | (Except.ok tail, st2) => (Except.ok ((d, s) :: tail), st2)

/-- State-passing `search`: same control flow as `search`, threading the
storage effects of every defaultdict subscript.  The resolution loop reads
`WORDS_DICTIONARY` only behind a key-membership guard (present-key plain
reads, no storage effect), so the pure `resolveQuery` is reused; likewise
`docs_reverse` is a local plain dict. -/
noncomputable def searchS (st : Store) (input : String) :
    Except SearchErr SearchOutcome × Store :=
  let query := resolveQuery st (tokenize input)
  if query = [] then (Except.error SearchErr.systemExit, st)
  else
    match revKeySetsS st query with
    | (sets, st1) =>
      let rel := intersection sets
      if rel = ∅ then (Except.ok SearchOutcome.noMatch, st1)
      else
        match scoreLoopS query st1 (rel.sort (fun a b => a ≤ b)) with
        | (Except.error e, st2) => (Except.error (SearchErr.pyErr e), st2)
        | (Except.ok scored, st2) =>
          match emitNames st2 (rankScores scored) with
          | Except.error e => (Except.error e, st2)
          | Except.ok out => (Except.ok (SearchOutcome.ranked out), st2)

/-- A one-term, one-document store (`N = 1`; term "cat", id 1, once in doc 4;
`DOC_FREQ = 1`, so `idf` is `log2(1) = 0`; `LENGTH` as stored at init). -/
noncomputable def storeA : Store :=
  { N := 1
    WORDS_DICTIONARY := [("cat", 1)]
    REV_INDEX := [(1, [(4, 1)])]
    DOC_FREQ := [(1, 1)]
    LENGTH := [(4, 1)]
    DOCS := [("doc4", 4)] }

/-- A store with `N = 3` and a term of document frequency 2, where floor and
real division of `N` by the frequency differ. -/
noncomputable def storeB : Store :=
  { N := 3
    WORDS_DICTIONARY := [("cat", 1)]
    REV_INDEX := [(1, [(5, 1), (6, 1)])]
    DOC_FREQ := [(1, 2)]
    LENGTH := [(5, 1), (6, 1)]
    DOCS := [("doc5", 5), ("doc6", 6)] }

/-- A store whose vocabulary term "ghost" (id 7) occurs in no document:
`DOC_FREQ[7] = 0` exactly as `init_doc_freq` stores it. -/
noncomputable def storeC : Store :=
  { N := 2
    WORDS_DICTIONARY := [("ghost", 7)]
    REV_INDEX := [(7, [])]
    DOC_FREQ := [(7, 0)]
    LENGTH := []
    DOCS := [("doc1", 1), ("doc2", 2)] }

/-- A two-term store whose terms occur in disjoint documents, so a query for
both has an empty candidate intersection. -/
noncomputable def storeE : Store :=
  { N := 2
    WORDS_DICTIONARY := [("cat", 1), ("dog", 2)]
    REV_INDEX := [(1, [(10, 1)]), (2, [(11, 1)])]
    DOC_FREQ := [(1, 1), (2, 1)]
    LENGTH := [(10, 1), (11, 1)]
    DOCS := [("doca", 10), ("docb", 11)] }

/-- A parsed document id file with a duplicated document name. -/
def docLinesDup : List (String × ℕ) := [("doca", 1), ("doca", 2)]

/-- A parsed document id file with distinct document names. -/
def docLinesGood : List (String × ℕ) := [("doca", 1), ("docb", 2)]

theorem pyLookup_dictSet_self {α β : Type} [DecidableEq α] (m : List (α × β)) (k : α) (v : β) :
    pyLookup k (dictSet m k v) = some v := by
  induction m with
  | nil => simp [dictSet, pyLookup]
  | cons p rest ih =>
    by_cases h : p.1 = k
    · simp [dictSet, h, pyLookup]
    · simp [dictSet, h, pyLookup, ih]

theorem pyLookup_dictSet_ne {α β : Type} [DecidableEq α] (m : List (α × β)) {k k2 : α}
    (v : β) (h : k2 ≠ k) : pyLookup k2 (dictSet m k v) = pyLookup k2 m := by
  have hk : ¬(k = k2) := fun hh => h hh.symm
  induction m with
  | nil =>
    simp only [dictSet, pyLookup, if_neg hk]
  | cons p rest ih =>
    by_cases hp : p.1 = k
    · have hp2 : ¬(p.1 = k2) := by rw [hp]; exact hk
      simp only [dictSet, if_pos hp, pyLookup, if_neg hk, if_neg hp2]
    · simp only [dictSet, if_neg hp, pyLookup]
      by_cases hp2 : p.1 = k2
      · rw [if_pos hp2, if_pos hp2]
      · rw [if_neg hp2, if_neg hp2, ih]

theorem dictSet_length {α β : Type} [DecidableEq α] (m : List (α × β)) (k : α) (v : β)
    (h : pyLookup k m = none) : (dictSet m k v).length = m.length + 1 := by
  induction m with
  | nil => simp [dictSet]
  | cons p rest ih =>
    simp only [pyLookup] at h
    by_cases hp : p.1 = k
    · rw [if_pos hp] at h; exact absurd h (by simp)
    · rw [if_neg hp] at h
      simp [dictSet, hp, ih h]

theorem pyLookup_mem_snd {α β : Type} [DecidableEq α] {m : List (α × β)} {k : α} {v : β}
    (h : pyLookup k m = some v) : v ∈ m.map Prod.snd := by
  induction m with
  | nil => simp [pyLookup] at h
  | cons p rest ih =>
    simp only [pyLookup] at h
    by_cases hp : p.1 = k
    · rw [if_pos hp] at h
      simp [← Option.some.injEq _ _ |>.mp h]
    · rw [if_neg hp] at h
      simp [ih h]

theorem pyLookup_foldl_set_not_mem {α β : Type} [DecidableEq α] (f : α → β) :
    ∀ (l : List α) (m : List (α × β)) (d : α), d ∉ l →
      pyLookup d (l.foldl (fun m2 x => dictSet m2 x (f x)) m) = pyLookup d m := by
  intro l
  induction l with
  | nil => intro m d _; rfl
  | cons x rest ih =>
    intro m d hd
    have hdx : d ≠ x := fun hh => hd (hh ▸ List.mem_cons_self x rest)
    have hdr : d ∉ rest := fun hh => hd (List.mem_cons_of_mem x hh)
    simp only [List.foldl_cons]
    rw [ih _ d hdr, pyLookup_dictSet_ne _ _ hdx]

theorem pyLookup_foldl_set_mem {α β : Type} [DecidableEq α] (f : α → β) :
    ∀ (l : List α) (m : List (α × β)) (d : α), d ∈ l →
      pyLookup d (l.foldl (fun m2 x => dictSet m2 x (f x)) m) = some (f d) := by
  intro l
  induction l with
  | nil => intro m d hd; exact absurd hd (List.not_mem_nil d)
  | cons x rest ih =>
    intro m d hd
    by_cases hdr : d ∈ rest
    · simp only [List.foldl_cons]
      exact ih _ d hdr
    · have hdx : d = x := by
        rcases List.mem_cons.mp hd with h | h
        · exact h
        · exact absurd h hdr
      subst hdx
      simp only [List.foldl_cons]
      rw [pyLookup_foldl_set_not_mem f rest _ d hdr, pyLookup_dictSet_self]

theorem foldl_dictSet_pairs_length {α β : Type} [DecidableEq α] :
    ∀ (l : List (α × β)) (m : List (α × β)), (l.map Prod.fst).Nodup →
      (∀ p ∈ l, pyLookup p.1 m = none) →
      (l.foldl (fun m2 p => dictSet m2 p.1 p.2) m).length = m.length + l.length := by
  intro l
  induction l with
  | nil => intro m _ _; simp
  | cons p rest ih =>
    intro m hnd hnone
    simp only [List.map_cons, List.nodup_cons] at hnd
    simp only [List.foldl_cons]
    have hstep : ∀ p2 ∈ rest, pyLookup p2.1 (dictSet m p.1 p.2) = none := by
      intro p2 hp2
      have hne : p2.1 ≠ p.1 := fun hh => hnd.1 (hh ▸ List.mem_map_of_mem Prod.fst hp2)
      rw [pyLookup_dictSet_ne _ _ hne]
      exact hnone p2 (List.mem_cons_of_mem p hp2)
    rw [ih _ hnd.2 hstep, dictSet_length _ _ _ (hnone p (List.mem_cons_self p rest))]
    simp only [List.length_cons]
    omega

theorem resolveQuery_subset (st : Store) :
    ∀ (toks : List String) (t : ℕ), t ∈ resolveQuery st toks → t ∈ vocabValues st := by
  intro toks
  induction toks with
  | nil => intro t ht; simp [resolveQuery] at ht
  | cons w rest ih =>
    intro t ht
    simp only [resolveQuery] at ht
    cases hw : pyLookup w st.WORDS_DICTIONARY with
    | some t0 =>
      rw [hw] at ht
      rcases List.mem_cons.mp ht with h | h
      · exact h ▸ pyLookup_mem_snd hw
      · exact ih t h
    | none =>
      rw [hw] at ht
      exact ih t ht

theorem mem_foldl_inter (d : ℕ) :
    ∀ (rest : List (Finset ℕ)) (s : Finset ℕ),
      d ∈ rest.foldl (fun a b => a ∩ b) s ↔ d ∈ s ∧ ∀ x ∈ rest, d ∈ x := by
  intro rest
  induction rest with
  | nil => intro s; simp
  | cons x rest ih =>
    intro s
    simp only [List.foldl_cons, ih, Finset.mem_inter, List.forall_mem_cons]
    tauto

theorem mem_intersection {sets : List (Finset ℕ)} (hne : sets ≠ []) (d : ℕ) :
    d ∈ intersection sets ↔ ∀ s ∈ sets, d ∈ s := by
  cases sets with
  | nil => exact absurd rfl hne
  | cons s rest =>
    simp only [intersection, mem_foldl_inter, List.forall_mem_cons]

theorem mem_relevant_docs {st : Store} {q : List ℕ} (hq : q ≠ []) (d : ℕ) :
    d ∈ relevant_docs st q ↔ ∀ t ∈ q, d ∈ postingDocs st t := by
  unfold relevant_docs
  rw [mem_intersection (by simpa using hq) d]
  constructor
  · intro h t ht
    exact h _ (List.mem_map_of_mem _ ht)
  · intro h s hs
    rcases List.mem_map.mp hs with ⟨t, ht, rfl⟩
    exact h t ht

theorem idf_ok_of_fine {st : Store} {w : ℕ} (h : termFine st w) :
    idf st w = Except.ok (idfVal st w) := by
  unfold idf idfVal
  by_cases hv : w ∈ vocabValues st
  · rcases h hv with ⟨h1, h2⟩
    rw [if_pos hv, if_neg h1, if_neg h2, if_pos hv]
  · rw [if_neg hv, if_neg hv]

theorem idf_ok_fine {st : Store} {w : ℕ} {v : ℝ} (h : idf st w = Except.ok v) :
    termFine st w ∧ v = idfVal st w := by
  unfold idf at h
  by_cases hv : w ∈ vocabValues st
  · rw [if_pos hv] at h
    by_cases h1 : docFreqGet st w = 0
    · rw [if_pos h1] at h; exact absurd h (by simp)
    · rw [if_neg h1] at h
      by_cases h2 : st.N / docFreqGet st w = 0
      · rw [if_pos h2] at h; exact absurd h (by simp)
      · rw [if_neg h2] at h
        simp only [Except.ok.injEq] at h
        refine ⟨fun _ => ⟨h1, h2⟩, ?_⟩
        unfold idfVal
        rw [if_pos hv, ← h]
  · rw [if_neg hv] at h
    simp only [Except.ok.injEq] at h
    refine ⟨fun hh => absurd hh hv, ?_⟩
    unfold idfVal
    rw [if_neg hv, ← h]

theorem importance_ok_of_fine {st : Store} {w d : ℕ} (h : termFine st w) :
    importance st w d = Except.ok (importanceVal st w d) := by
  unfold importance importanceVal
  cases hf : pyLookup d (revGet st w) with
  | some f => rw [idf_ok_of_fine h]; rfl
  | none => rfl

theorem simTerm_ok_of_fine {st : Store} {d w : ℕ} (h : termFine st w) (acc : ℝ) :
    simTerm st d acc w = Except.ok (acc + idfVal st w * importanceVal st w d) := by
  unfold simTerm
  by_cases hv : w ∈ vocabValues st
  · rw [if_pos hv, idf_ok_of_fine h, importance_ok_of_fine h]
  · rw [if_neg hv]
    have h0 : idfVal st w = 0 := by unfold idfVal; rw [if_neg hv]
    rw [h0, zero_mul, add_zero]

theorem simTerm_ok_elim {st : Store} {d : ℕ} {acc : ℝ} {w : ℕ} {r : ℝ}
    (h : simTerm st d acc w = Except.ok r) :
    termFine st w ∧ r = acc + idfVal st w * importanceVal st w d := by
  unfold simTerm at h
  by_cases hv : w ∈ vocabValues st
  · rw [if_pos hv] at h
    cases hi : idf st w with
    | error e => rw [hi] at h; exact absurd h (by simp)
    | ok i =>
      rw [hi] at h
      obtain ⟨hfine, hival⟩ := idf_ok_fine hi
      cases him : importance st w d with
      | error e => rw [him] at h; exact absurd h (by simp)
      | ok imp =>
        rw [him] at h
        have h2 := @importance_ok_of_fine st w d hfine
        rw [him] at h2
        simp only [Except.ok.injEq] at h2 h
        exact ⟨hfine, by rw [← h, hival, h2]⟩
  · rw [if_neg hv] at h
    simp only [Except.ok.injEq] at h
    have h0 : idfVal st w = 0 := by unfold idfVal; rw [if_neg hv]
    exact ⟨fun hh => absurd hh hv, by rw [← h, h0, zero_mul, add_zero]⟩

theorem simLoop_ok_of_fine {st : Store} {d : ℕ} :
    ∀ (q : List ℕ) (acc : ℝ), (∀ w ∈ q, termFine st w) →
      simLoop st d acc q =
        Except.ok (acc + ((q.map (fun t => idfVal st t * importanceVal st t d)).sum)) := by
  intro q
  induction q with
  | nil => intro acc _; simp [simLoop]
  | cons w rest ih =>
    intro acc hfine
    have hw := hfine w (List.mem_cons_self w rest)
    simp only [simLoop, simTerm_ok_of_fine hw,
      ih (acc + idfVal st w * importanceVal st w d)
        (fun x hx => hfine x (List.mem_cons_of_mem w hx))]
    simp only [List.map_cons, List.sum_cons, Except.ok.injEq]
    ring

theorem simLoop_ok_fine {st : Store} {d : ℕ} :
    ∀ (q : List ℕ) (acc r : ℝ), simLoop st d acc q = Except.ok r →
      ∀ w ∈ q, termFine st w := by
  intro q
  induction q with
  | nil => intro acc r _ w hw; simp at hw
  | cons w0 rest ih =>
    intro acc r h w hw
    simp only [simLoop] at h
    cases hs : simTerm st d acc w0 with
    | error e => rw [hs] at h; exact absurd h (by simp)
    | ok acc2 =>
      rw [hs] at h
      rcases List.mem_cons.mp hw with rfl | hw2
      · exact (simTerm_ok_elim hs).1
      · exact ih _ _ h w hw2

theorem cos_similarity_ok_iff {st : Store} {q : List ℕ} {d : ℕ} {s : ℝ} :
    cos_similarity st q d = Except.ok s ↔
      (∀ w ∈ q, termFine st w) ∧ lengthGet st d ≠ 0 ∧
        s = ((q.map (fun t => idfVal st t * importanceVal st t d)).sum) / lengthGet st d := by
  constructor
  · intro h
    unfold cos_similarity at h
    cases hl : simLoop st d 0 q with
    | error e => rw [hl] at h; exact absurd h (by simp)
    | ok v =>
      rw [hl] at h
      dsimp only at h
      have hfine := simLoop_ok_fine q 0 v hl
      have hval := @simLoop_ok_of_fine st d q 0 hfine
      rw [hl] at hval
      simp only [Except.ok.injEq] at hval
      by_cases hz : lengthGet st d = 0
      · rw [if_pos hz] at h; exact absurd h (by simp)
      · rw [if_neg hz] at h
        simp only [Except.ok.injEq] at h
        exact ⟨hfine, hz, by rw [← h, hval, zero_add]⟩
  · rintro ⟨hfine, hz, rfl⟩
    unfold cos_similarity
    simp only [@simLoop_ok_of_fine st d q 0 hfine, zero_add]
    rw [if_neg hz]

theorem idf_mul_importance_nonneg (st : Store) (w d : ℕ) :
    0 ≤ idfVal st w * importanceVal st w d := by
  unfold importanceVal
  cases hf : pyLookup d (revGet st w) with
  | some f =>
    have hr : idfVal st w * ((f : ℝ) * idfVal st w) =
        (f : ℝ) * (idfVal st w * idfVal st w) := by ring
    rw [hr]
    exact mul_nonneg (Nat.cast_nonneg f) (mul_self_nonneg _)
  | none => simp

theorem idfValA : idfVal storeA 1 = 0 := by
  unfold idfVal
  rw [if_pos (show (1 : ℕ) ∈ vocabValues storeA by decide),
    show (storeA.N / docFreqGet storeA 1 : ℕ) = 1 from rfl]
  simp [Real.logb_one]

theorem cosA_eval : cos_similarity storeA [1] 4 = Except.ok 0 := by
  rw [cos_similarity_ok_iff]
  refine ⟨by decide, ?_, ?_⟩
  · rw [show lengthGet storeA 4 = 1 from rfl]
    exact one_ne_zero
  · simp [idfValA]

/-- C1: for every candidate document `d` and resolved query term list `q`, the
score computed by `cos_similarity` equals `(Σ_{t in q} IDF(t) *
importance(t, d)) / DocumentNorm[d]`: the query-side weight of each term is
its raw IDF value (no query-side term frequency appears), and every
occurrence of a term in `q` contributes one summand of the mapped sum. -/
theorem c1_score_is_idf_weighted_sum_over_norm (st : Store) (q : List ℕ) (d : ℕ) (s : ℝ)
    (_hq : ∀ t ∈ q, t ∈ vocabValues st)
    (hok : cos_similarity st q d = Except.ok s) :
    s = ((q.map (fun t => idfVal st t * importanceVal st t d)).sum) / lengthGet st d :=
  (cos_similarity_ok_iff.mp hok).2.2

/-- Witness for C1: the one-term query `[1]` against document 4 of `storeA`. -/
theorem c1_score_is_idf_weighted_sum_over_norm_witness :
    (∀ t ∈ ([1] : List ℕ), t ∈ vocabValues storeA) ∧
      (0 : ℝ) = ((([1] : List ℕ).map
        (fun t => idfVal storeA t * importanceVal storeA t 4)).sum) / lengthGet storeA 4 :=
  ⟨by decide,
    c1_score_is_idf_weighted_sum_over_norm storeA [1] 4 0 (by decide) cosA_eval⟩

/-- C8: for a candidate document `d` (one whose stored norm is non-negative,
as every norm `init_lengths` stores is), the cosine score is invariant under
any permutation of the resolved query term list, and appending a duplicate
occurrence of a query term `t` yields a score at least the original one,
strictly greater whenever `IDF(t) * importance(t, d) > 0`. -/
theorem c8_perm_invariant_and_duplicate_monotone (st : Store) (q : List ℕ) (d t : ℕ) (s : ℝ)
    (ht : t ∈ q) (hlen0 : 0 ≤ lengthGet st d)
    (hok : cos_similarity st q d = Except.ok s) :
    (∀ q2, q.Perm q2 → cos_similarity st q2 d = Except.ok s) ∧
      ∃ s2, cos_similarity st (q ++ [t]) d = Except.ok s2 ∧ s ≤ s2 ∧
        (0 < idfVal st t * importanceVal st t d → s < s2) := by
  obtain ⟨hfine, hz, hs⟩ := cos_similarity_ok_iff.mp hok
  have hlpos : 0 < lengthGet st d := lt_of_le_of_ne hlen0 (Ne.symm hz)
  constructor
  · intro q2 hperm
    rw [cos_similarity_ok_iff]
    refine ⟨fun w hw => hfine w (hperm.mem_iff.mpr hw), hz, ?_⟩
    rw [hs]
    congr 1
    exact List.Perm.sum_eq (hperm.map _)
  · refine ⟨s + (idfVal st t * importanceVal st t d) / lengthGet st d, ?_, ?_, ?_⟩
    · rw [cos_similarity_ok_iff]
      refine ⟨?_, hz, ?_⟩
      · intro w hw
        rcases List.mem_append.mp hw with h | h
        · exact hfine w h
        · have hwt := List.mem_singleton.mp h
          subst hwt
          exact hfine w ht
      · rw [List.map_append, List.sum_append]
        simp only [List.map_cons, List.map_nil, List.sum_cons, List.sum_nil, add_zero]
        rw [hs, add_div]
    · have hnn : 0 ≤ (idfVal st t * importanceVal st t d) / lengthGet st d :=
        div_nonneg (idf_mul_importance_nonneg st t d) hlen0
      linarith
    · intro hcpos
      have hpos : 0 < (idfVal st t * importanceVal st t d) / lengthGet st d :=
        div_pos hcpos hlpos
      linarith

/-- Witness for C8: duplicating the single query term of `storeA`. -/
theorem c8_perm_invariant_and_duplicate_monotone_witness :
    (1 ∈ ([1] : List ℕ)) ∧
      ((∀ q2, ([1] : List ℕ).Perm q2 → cos_similarity storeA q2 4 = Except.ok 0) ∧
        ∃ s2, cos_similarity storeA ([1] ++ [1]) 4 = Except.ok s2 ∧ (0 : ℝ) ≤ s2 ∧
          (0 < idfVal storeA 1 * importanceVal storeA 1 4 → (0 : ℝ) < s2)) :=
  ⟨by decide,
    c8_perm_invariant_and_duplicate_monotone storeA [1] 4 1 0 (by decide)
      (by rw [show lengthGet storeA 4 = 1 from rfl]; exact zero_le_one) cosA_eval⟩

/-- C10: `cos_similarity` divides by the stored norm `LENGTH[doc_id]` with no
guard: whenever that norm is `0`, scoring a candidate raises
`ZeroDivisionError` instead of returning a score (here stated for queries
whose terms themselves raise no exception first, isolating the final
division), so scoring is total only when every candidate has a strictly
positive norm. -/
theorem c10_zero_norm_divides_by_zero (st : Store) (q : List ℕ) (d : ℕ)
    (hlen : lengthGet st d = 0) (hfine : ∀ w ∈ q, termFine st w) :
    cos_similarity st q d = Except.error PyErr.zeroDivisionError ∧
      ∀ s, cos_similarity st q d ≠ Except.ok s := by
  have h := @simLoop_ok_of_fine st d q 0 hfine
  unfold cos_similarity
  rw [h]
  dsimp only
  rw [if_pos hlen]
  exact ⟨rfl, by simp⟩

/-- Witness for C10: document 1 of `storeC` has no stored norm, so the
defaultdict read is `0.0` and scoring it raises. -/
theorem c10_zero_norm_divides_by_zero_witness :
    lengthGet storeC 1 = 0 ∧
      cos_similarity storeC [] 1 = Except.error PyErr.zeroDivisionError :=
  ⟨rfl, (c10_zero_norm_divides_by_zero storeC [] 1 rfl (by decide)).1⟩

/-- C2: for every non-empty resolved query term list, a document is in the
candidate set of `search` exactly when it is in every query term's posting
doc-id set (the intersection, i.e. AND semantics: every candidate contains
every resolved term), and an empty intersection makes `search` return the
explicit no-match outcome instead of a scored result. -/
theorem c2_candidates_are_posting_intersection (st : Store) (input : String)
    (hq : resolveQuery st (tokenize input) ≠ []) :
    (∀ d, d ∈ relevant_docs st (resolveQuery st (tokenize input)) ↔
      ∀ t ∈ resolveQuery st (tokenize input), d ∈ postingDocs st t) ∧
    (relevant_docs st (resolveQuery st (tokenize input)) = ∅ →
      search st input = Except.ok SearchOutcome.noMatch) := by
  refine ⟨fun d => mem_relevant_docs hq d, fun hrel => ?_⟩
  simp only [search]
  rw [if_neg hq, if_pos hrel]

/-- Witness for C2: the query "cat dog" on `storeE` resolves to two terms
with disjoint postings. -/
theorem c2_candidates_are_posting_intersection_witness :
    resolveQuery storeE (tokenize "cat dog") ≠ [] ∧
      search storeE "cat dog" = Except.ok SearchOutcome.noMatch :=
  ⟨by decide,
    (c2_candidates_are_posting_intersection storeE "cat dog" (by decide)).2 (by decide)⟩

/-- C6 counterexample: on `storeA`, no token of the raw query "zzz" resolves,
and `search` does not return an ordinary empty-result value: it performs the
`sys.exit()` control transfer (`SystemExit`), aborting the process. -/
theorem c6_counterexample_no_terms_exits :
    resolveQuery storeA (tokenize "zzz") = [] ∧
      search storeA "zzz" = Except.error SearchErr.systemExit ∧
      ∀ r, search storeA "zzz" ≠ Except.ok r := by
  refine ⟨by decide, rfl, ?_⟩
  intro r h
  rw [show search storeA "zzz" = Except.error SearchErr.systemExit from rfl] at h
  exact absurd h (by simp)

/-- C6 amended: a query whose tokens all fail to resolve makes `search` raise
`SystemExit` via `sys.exit()` (a control transfer that ends the process, not
an ordinary return); the empty-intersection outcome, by contrast, is an
ordinary `noMatch` return value. -/
theorem c6_amended_exit_on_empty_query_return_on_no_match (st : Store) (input : String) :
    (resolveQuery st (tokenize input) = [] →
      search st input = Except.error SearchErr.systemExit) ∧
    (resolveQuery st (tokenize input) ≠ [] →
      relevant_docs st (resolveQuery st (tokenize input)) = ∅ →
      search st input = Except.ok SearchOutcome.noMatch) := by
  constructor
  · intro hq
    simp only [search]
    rw [if_pos hq]
  · intro hq hrel
    simp only [search]
    rw [if_neg hq, if_pos hrel]

/-- Witness for the amended C6, at concrete stores and queries. -/
theorem c6_amended_exit_on_empty_query_return_on_no_match_witness :
    search storeA "zzz" = Except.error SearchErr.systemExit ∧
      search storeE "cat dog" = Except.ok SearchOutcome.noMatch :=
  ⟨(c6_amended_exit_on_empty_query_return_on_no_match storeA "zzz").1 (by decide),
   (c6_amended_exit_on_empty_query_return_on_no_match storeE "cat dog").2
     (by decide) (by decide)⟩

/-- C3 counterexample: on `storeB` (`N = 3`, document frequency 2), term 1 is
a vocabulary term with frequency at least 1, yet `idf` returns
`log2(3 // 2) = log2(1) = 0` (Python 2 floor division), not the spec's
real-quotient value `log2(3 / 2) > 0`. -/
theorem c3_counterexample_floor_division :
    (1 ∈ vocabValues storeB) ∧ docFreqGet storeB 1 = 2 ∧ storeB.N = 3 ∧
      idf storeB 1 ≠ Except.ok (spec_inverseDocumentFrequency storeB 1) := by
  refine ⟨by decide, rfl, rfl, ?_⟩
  intro h
  rw [show idf storeB 1 = Except.ok (Real.logb 2 ((1 : ℕ) : ℝ)) from rfl] at h
  simp only [Except.ok.injEq] at h
  have h1 : Real.logb 2 ((1 : ℕ) : ℝ) = 0 := by simp [Real.logb_one]
  have h2 : 0 < spec_inverseDocumentFrequency storeB 1 := by
    unfold spec_inverseDocumentFrequency
    rw [show storeB.N = 3 from rfl, show docFreqGet storeB 1 = 2 from rfl]
    apply Real.logb_pos (by norm_num)
    norm_num
  rw [h1] at h
  rw [← h] at h2
  exact lt_irrefl 0 h2

/-- C3 amended: for vocabulary terms with document frequency between 1 and
`N`, `idf` returns `log2` of the floor quotient `N // DocumentFrequency`
(Python 2 integer division), and for term ids absent from the vocabulary it
returns exactly `0.0`.  (Frequency `0` raises instead, see C5; frequency
above `N` floors the quotient to `0` and raises `ValueError`.) -/
theorem c3_amended_idf_floor_quotient (st : Store) (w : ℕ) :
    (w ∈ vocabValues st → 1 ≤ docFreqGet st w → docFreqGet st w ≤ st.N →
      idf st w = Except.ok (Real.logb 2 ((st.N / docFreqGet st w : ℕ) : ℝ))) ∧
    (w ∉ vocabValues st → idf st w = Except.ok 0) := by
  constructor
  · intro hv h1 h2
    unfold idf
    rw [if_pos hv, if_neg (by omega), if_neg (Nat.div_pos h2 (by omega)).ne']
  · intro hv
    unfold idf
    rw [if_neg hv]

/-- Witness for the amended C3: a vocabulary term of `storeB` and a term id
unknown to it. -/
theorem c3_amended_idf_floor_quotient_witness :
    ((1 : ℕ) ∈ vocabValues storeB ∧ 1 ≤ docFreqGet storeB 1 ∧
      docFreqGet storeB 1 ≤ storeB.N ∧
      idf storeB 1 = Except.ok (Real.logb 2 ((storeB.N / docFreqGet storeB 1 : ℕ) : ℝ))) ∧
      ((9 : ℕ) ∉ vocabValues storeB ∧ idf storeB 9 = Except.ok 0) :=
  ⟨⟨by decide, by decide, by decide,
    (c3_amended_idf_floor_quotient storeB 1).1 (by decide) (by decide) (by decide)⟩,
   ⟨by decide, (c3_amended_idf_floor_quotient storeB 9).2 (by decide)⟩⟩

/-- C5 counterexample: `storeC` holds a loaded vocabulary term ("ghost", id
7) with an empty posting block and `DOC_FREQ[7] = 0` exactly as
`init_doc_freq` computes it; no load-time rejection exists, no 0-convention
is applied, and evaluating `idf` on this term reaches `N / DOC_FREQ[7]` with
a zero divisor: it raises `ZeroDivisionError`. -/
theorem c5_counterexample_degenerate_term_divides_by_zero :
    (7 ∈ vocabValues storeC) ∧ docFreqGet storeC 7 = 0 ∧
      docFreqGet storeC 7 = (revGet storeC 7).length ∧
      idf storeC 7 = Except.error PyErr.zeroDivisionError :=
  ⟨by decide, rfl, rfl, rfl⟩

/-- C5 amended: the source adopts neither guard: `idf` raises
`ZeroDivisionError` on any vocabulary term whose `DOC_FREQ` entry is `0`.
The defect is latent in `search`: when `DOC_FREQ` agrees with the posting
table (as `init_doc_freq` makes it), every term of a query whose candidate
intersection is non-empty has a non-empty posting list, so scoring never
evaluates `idf` on a degenerate term. -/
theorem c5_amended_unguarded_but_unreachable_in_search (st : Store) :
    (∀ w ∈ vocabValues st, docFreqGet st w = 0 →
      idf st w = Except.error PyErr.zeroDivisionError) ∧
    ((∀ w ∈ vocabValues st, docFreqGet st w = (revGet st w).length) →
      ∀ (q : List ℕ) (t : ℕ), t ∈ q → relevant_docs st q ≠ ∅ →
        idf st t ≠ Except.error PyErr.zeroDivisionError) := by
  constructor
  · intro w hv h0
    unfold idf
    rw [if_pos hv, if_pos h0]
  · intro hsync q t ht hrel
    by_cases hv : t ∈ vocabValues st
    · obtain ⟨d, hd⟩ := Finset.nonempty_iff_ne_empty.mpr hrel
      have hq : q ≠ [] := fun hh => by rw [hh] at ht; exact (List.not_mem_nil t) ht
      have hmem := (mem_relevant_docs hq d).mp hd t ht
      have hlen : revGet st t ≠ [] := by
        intro he
        unfold postingDocs at hmem
        rw [he] at hmem
        simp at hmem
      have hdf : docFreqGet st t ≠ 0 := by
        rw [hsync t hv]
        intro hz
        exact hlen (List.length_eq_zero.mp hz)
      unfold idf
      rw [if_pos hv, if_neg hdf]
      by_cases h2 : st.N / docFreqGet st t = 0
      · rw [if_pos h2]
        intro h
        exact absurd h (by simp)
      · rw [if_neg h2]
        intro h
        exact absurd h (by simp)
    · unfold idf
      rw [if_neg hv]
      intro h
      exact absurd h (by simp)

/-- Witness for the amended C5: the degenerate term of `storeC` raises, and
the sole query term of a scored query on `storeA` cannot raise. -/
theorem c5_amended_unguarded_but_unreachable_in_search_witness :
    idf storeC 7 = Except.error PyErr.zeroDivisionError ∧
      idf storeA 1 ≠ Except.error PyErr.zeroDivisionError :=
  ⟨(c5_amended_unguarded_but_unreachable_in_search storeC).1 7 (by decide) (by decide),
   (c5_amended_unguarded_but_unreachable_in_search storeA).2 (by decide) [1] 1
     (by decide) (by decide)⟩

/-- C7 counterexample: a document id file with a duplicated name has line
count 2 (`init_no_docs`, the `N` of `main`) but only one distinct document in
the mapping `init_docs_dict` builds from the same file, so `N` is not the
number of distinct documents there. -/
theorem c7_counterexample_duplicate_names :
    init_no_docs docLinesDup = 2 ∧ (init_docs_dict docLinesDup).length = 1 ∧
      init_no_docs docLinesDup ≠ (init_docs_dict docLinesDup).length :=
  ⟨rfl, by decide, by decide⟩

/-- C7 amended: `init_no_docs` (the corpus size `N`) equals the line count of
the document id file; it equals the number of distinct documents in the
mapping only when the file's document names are distinct. -/
theorem c7_amended_count_is_line_count (lines : List (String × ℕ)) :
    init_no_docs lines = lines.length ∧
      ((lines.map Prod.fst).Nodup →
        init_no_docs lines = (init_docs_dict lines).length) := by
  refine ⟨rfl, fun hnd => ?_⟩
  unfold init_no_docs init_docs_dict
  rw [foldl_dictSet_pairs_length lines [] hnd (fun p _ => rfl)]
  simp

/-- Witness for the amended C7, on a duplicate-free file. -/
theorem c7_amended_count_is_line_count_witness :
    init_no_docs docLinesGood = docLinesGood.length ∧
      init_no_docs docLinesGood = (init_docs_dict docLinesGood).length :=
  ⟨(c7_amended_count_is_line_count docLinesGood).1,
   (c7_amended_count_is_line_count docLinesGood).2 (by decide)⟩

theorem list_sum_nonneg_all_zero :
    ∀ (l : List ℝ), (∀ x ∈ l, 0 ≤ x) → l.sum = 0 → ∀ x ∈ l, x = 0 := by
  intro l
  induction l with
  | nil => intro _ _ x hx; simp at hx
  | cons a rest ih =>
    intro hnn hsum x hx
    have ha : 0 ≤ a := hnn a (List.mem_cons_self a rest)
    have hrest : 0 ≤ rest.sum :=
      List.sum_nonneg (fun y hy => hnn y (List.mem_cons_of_mem a hy))
    simp only [List.sum_cons] at hsum
    have ha0 : a = 0 := by linarith
    have hs0 : rest.sum = 0 := by linarith
    rcases List.mem_cons.mp hx with rfl | hx2
    · exact ha0
    · exact ih (fun y hy => hnn y (List.mem_cons_of_mem a hy)) hs0 x hx2

/-- C4: for every document `d` in the document mapping, the norm
`init_lengths` stores for `d` is the square root of the sum of
`importance(t, d) ^ 2` over every vocabulary term `t` (terms without a
posting for `d` contributing `0` through `importanceVal`); the norm is
non-negative, and it is `0` only if every TF-IDF weight of `d` is `0`. -/
theorem c4_norm_invariant (st : Store) (d : ℕ) (hd : d ∈ docsValues st) :
    lengthGet (init_lengths st) d = docLength st d ∧
      0 ≤ docLength st d ∧
      (docLength st d = 0 → ∀ w ∈ vocabValues st, importanceVal st w d = 0) := by
  refine ⟨?_, Real.sqrt_nonneg _, ?_⟩
  · unfold init_lengths lengthGet
    dsimp only
    rw [pyLookup_foldl_set_mem (fun x => docLength st x) (docsValues st) st.LENGTH d hd]
    rfl
  · intro h0 w hw
    unfold docLength at h0
    have hnn : ∀ x ∈ (vocabValues st).map (fun w2 => importanceVal st w2 d ^ 2), 0 ≤ x := by
      intro x hx
      rcases List.mem_map.mp hx with ⟨w2, _, rfl⟩
      exact sq_nonneg _
    have hsum0 : ((vocabValues st).map (fun w2 => importanceVal st w2 d ^ 2)).sum = 0 := by
      have hle := Real.sqrt_eq_zero'.mp h0
      have hge := List.sum_nonneg hnn
      linarith
    have hx0 := list_sum_nonneg_all_zero _ hnn hsum0 (importanceVal st w d ^ 2)
      (List.mem_map_of_mem _ hw)
    exact sq_eq_zero_iff.mp hx0

/-- Witness for C4: document 4 of `storeA`. -/
theorem c4_norm_invariant_witness :
    (4 ∈ docsValues storeA) ∧
      lengthGet (init_lengths storeA) 4 = docLength storeA 4 ∧
      0 ≤ docLength storeA 4 :=
  ⟨by decide, (c4_norm_invariant storeA 4 (by decide)).1,
   (c4_norm_invariant storeA 4 (by decide)).2.1⟩

theorem store_eta (st : Store) :
    Store.mk st.N st.WORDS_DICTIONARY st.REV_INDEX st.DOC_FREQ st.LENGTH st.DOCS = st := rfl

theorem pyLookup_mem {α β : Type} [DecidableEq α] {m : List (α × β)} {k : α} {v : β}
    (h : pyLookup k m = some v) : (k, v) ∈ m := by
  induction m with
  | nil => simp [pyLookup] at h
  | cons p rest ih =>
    simp only [pyLookup] at h
    by_cases hp : p.1 = k
    · rw [if_pos hp] at h
      simp only [Option.some.injEq] at h
      cases p with
      | mk a b =>
        simp only at hp h
        subst hp
        subst h
        exact List.mem_cons_self _ _
    · rw [if_neg hp] at h
      exact List.mem_cons_of_mem p (ih h)

theorem dGet_of_isSome {β : Type} {m : List (ℕ × β)} {k : ℕ} (dflt : β)
    (h : (pyLookup k m).isSome = true) :
    dGet m dflt k = ((pyLookup k m).getD dflt, m) := by
  unfold dGet
  cases hl : pyLookup k m with
  | some v => rfl
  | none => rw [hl] at h; simp at h

theorem idfS_unchanged (st : Store) (w : ℕ)
    (hdf : w ∈ vocabValues st → (pyLookup w st.DOC_FREQ).isSome = true) :
    ∃ r, idfS st w = (r, st) := by
  unfold idfS
  by_cases hv : w ∈ vocabValues st
  · rw [if_pos hv, dGet_of_isSome 0 (hdf hv)]
    dsimp only
    by_cases h0 : (pyLookup w st.DOC_FREQ).getD 0 = 0
    · exact ⟨_, by rw [if_pos h0]⟩
    · by_cases h2 : st.N / (pyLookup w st.DOC_FREQ).getD 0 = 0
      · exact ⟨_, by rw [if_neg h0, if_pos h2]⟩
      · exact ⟨_, by rw [if_neg h0, if_neg h2]⟩
  · exact ⟨_, by rw [if_neg hv]⟩

theorem importanceS_unchanged (st : Store) (w d : ℕ)
    (hrev : (pyLookup w st.REV_INDEX).isSome = true)
    (hdf : w ∈ vocabValues st → (pyLookup w st.DOC_FREQ).isSome = true) :
    ∃ r, importanceS st w d = (r, st) := by
  unfold importanceS
  rw [dGet_of_isSome [] hrev]
  dsimp only
  simp only [store_eta]
  cases hf : pyLookup d ((pyLookup w st.REV_INDEX).getD []) with
  | some f =>
    obtain ⟨r1, hr1⟩ := idfS_unchanged st w hdf
    rw [hr1]
    cases r1 with
    | error e => exact ⟨_, rfl⟩
    | ok i => exact ⟨_, rfl⟩
  | none => exact ⟨_, rfl⟩

theorem simTermS_unchanged (st : Store) (d : ℕ) (acc : ℝ) (w : ℕ)
    (hrev : w ∈ vocabValues st → (pyLookup w st.REV_INDEX).isSome = true)
    (hdf : w ∈ vocabValues st → (pyLookup w st.DOC_FREQ).isSome = true) :
    ∃ r, simTermS st d acc w = (r, st) := by
  unfold simTermS
  by_cases hv : w ∈ vocabValues st
  · rw [if_pos hv]
    obtain ⟨r1, hr1⟩ := idfS_unchanged st w hdf
    rw [hr1]
    cases r1 with
    | error e => exact ⟨_, rfl⟩
    | ok i =>
      dsimp only
      obtain ⟨r2, hr2⟩ := importanceS_unchanged st w d (hrev hv) hdf
      rw [hr2]
      cases r2 with
      | error e => exact ⟨_, rfl⟩
      | ok imp => exact ⟨_, rfl⟩
  · exact ⟨_, by rw [if_neg hv]⟩

theorem simFoldS_unchanged (st : Store) (d : ℕ)
    (hrev : ∀ w ∈ vocabValues st, (pyLookup w st.REV_INDEX).isSome = true)
    (hdf : ∀ w ∈ vocabValues st, (pyLookup w st.DOC_FREQ).isSome = true) :
    ∀ (q : List ℕ) (acc : ℝ), ∃ r, simFoldS d st acc q = (r, st) := by
  intro q
  induction q with
  | nil => intro acc; exact ⟨_, rfl⟩
  | cons w rest ih =>
    intro acc
    unfold simFoldS
    obtain ⟨r1, hr1⟩ :=
      simTermS_unchanged st d acc w (fun hv => hrev w hv) (fun hv => hdf w hv)
    rw [hr1]
    cases r1 with
    | error e => exact ⟨_, rfl⟩
    | ok acc2 => exact ih acc2

theorem cos_similarityS_unchanged (st : Store) (q : List ℕ) (d : ℕ)
    (hrev : ∀ w ∈ vocabValues st, (pyLookup w st.REV_INDEX).isSome = true)
    (hdf : ∀ w ∈ vocabValues st, (pyLookup w st.DOC_FREQ).isSome = true)
    (hlen : (pyLookup d st.LENGTH).isSome = true) :
    ∃ r, cos_similarityS st q d = (r, st) := by
  unfold cos_similarityS
  obtain ⟨r1, hr1⟩ := simFoldS_unchanged st d hrev hdf q 0
  rw [hr1]
  cases r1 with
  | error e => exact ⟨_, rfl⟩
  | ok s =>
    dsimp only
    rw [dGet_of_isSome 0 hlen]
    dsimp only
    by_cases h0 : (pyLookup d st.LENGTH).getD 0 = 0
    · exact ⟨_, by rw [if_pos h0]⟩
    · exact ⟨_, by rw [if_neg h0]⟩

theorem revKeySetsS_unchanged (st : Store) :
    ∀ (q : List ℕ), (∀ t ∈ q, (pyLookup t st.REV_INDEX).isSome = true) →
      revKeySetsS st q = (q.map (fun t => postingDocs st t), st) := by
  intro q
  induction q with
  | nil => intro _; rfl
  | cons t rest ih =>
    intro hrev
    unfold revKeySetsS
    rw [dGet_of_isSome [] (hrev t (List.mem_cons_self t rest))]
    dsimp only
    simp only [store_eta]
    rw [ih (fun x hx => hrev x (List.mem_cons_of_mem t hx))]
    rfl

theorem scoreLoopS_unchanged (st : Store) (q : List ℕ)
    (hrev : ∀ w ∈ vocabValues st, (pyLookup w st.REV_INDEX).isSome = true)
    (hdf : ∀ w ∈ vocabValues st, (pyLookup w st.DOC_FREQ).isSome = true) :
    ∀ (ds : List ℕ), (∀ d ∈ ds, (pyLookup d st.LENGTH).isSome = true) →
      ∃ r, scoreLoopS q st ds = (r, st) := by
  intro ds
  induction ds with
  | nil => intro _; exact ⟨_, rfl⟩
  | cons d rest ih =>
    intro hlen
    unfold scoreLoopS
    obtain ⟨r1, hr1⟩ :=
      cos_similarityS_unchanged st q d hrev hdf (hlen d (List.mem_cons_self d rest))
    rw [hr1]
    cases r1 with
    | error e => exact ⟨_, rfl⟩
    | ok s =>
      dsimp only
      obtain ⟨r2, hr2⟩ := ih (fun x hx => hlen x (List.mem_cons_of_mem d hx))
      rw [hr2]
      cases r2 with
      | error e => exact ⟨_, rfl⟩
      | ok tail => exact ⟨_, rfl⟩

/-- C9: executing a query leaves the Index Store unchanged.  The hypotheses
state the shape startup leaves the tables in: `init_doc_freq`'s
`len(REV_INDEX[w])` reads insert an entry (possibly empty) for every
vocabulary term into `REV_INDEX` and set its `DOC_FREQ` entry, and
`init_lengths` stores a norm for every document the (well-formed) postings
table mentions.  Under them, every table subscript the query performs hits a
present key, so no defaultdict insertion happens and `searchS` returns the
exact store it started from, on every path (including error paths). -/
theorem c9_query_leaves_store_unchanged (st : Store) (input : String)
    (hrev : ∀ w ∈ vocabValues st, (pyLookup w st.REV_INDEX).isSome = true)
    (hdf : ∀ w ∈ vocabValues st, (pyLookup w st.DOC_FREQ).isSome = true)
    (hlen : ∀ e ∈ st.REV_INDEX, ∀ pr ∈ e.2, (pyLookup pr.1 st.LENGTH).isSome = true) :
    (searchS st input).2 = st := by
  unfold searchS
  by_cases hquery : resolveQuery st (tokenize input) = []
  · rw [if_pos hquery]
  · rw [if_neg hquery]
    have hqrev : ∀ t ∈ resolveQuery st (tokenize input),
        (pyLookup t st.REV_INDEX).isSome = true :=
      fun t ht => hrev t (resolveQuery_subset st (tokenize input) t ht)
    rw [revKeySetsS_unchanged st _ hqrev]
    dsimp only
    by_cases hrel :
        intersection ((resolveQuery st (tokenize input)).map (fun t => postingDocs st t)) = ∅
    · rw [if_pos hrel]
    · rw [if_neg hrel]
      have hcand : ∀ d2 ∈ (intersection ((resolveQuery st (tokenize input)).map
          (fun t => postingDocs st t))).sort (fun a b => a ≤ b),
          (pyLookup d2 st.LENGTH).isSome = true := by
        intro d2 hd2
        rw [Finset.mem_sort] at hd2
        obtain ⟨t, ht⟩ : ∃ t, t ∈ resolveQuery st (tokenize input) := by
          cases hq : resolveQuery st (tokenize input) with
          | nil => exact absurd hq hquery
          | cons a b => exact ⟨a, List.mem_cons_self a b⟩
        have hmem := (mem_intersection (by simpa using hquery) d2).mp hd2 _
          (List.mem_map_of_mem _ ht)
        unfold postingDocs at hmem
        rw [List.mem_toFinset] at hmem
        obtain ⟨pr, hpr, hpr1⟩ := List.mem_map.mp hmem
        unfold revGet at hpr
        cases hlt : pyLookup t st.REV_INDEX with
        | none => rw [hlt] at hpr; simp at hpr
        | some inner =>
          rw [hlt] at hpr
          have hent := pyLookup_mem hlt
          have := hlen (t, inner) hent pr hpr
          rw [hpr1] at this
          exact this
      obtain ⟨r1, hr1⟩ := scoreLoopS_unchanged st _ hrev hdf _ hcand
      rw [hr1]
      cases r1 with
      | error e => rfl
      | ok scored =>
        dsimp only
        cases hemit : emitNames st (rankScores scored) with
        | error e => rfl
        | ok out => rfl

/-- Witness for C9: a fully-scored query against `storeA`. -/
theorem c9_query_leaves_store_unchanged_witness :
    (∀ w ∈ vocabValues storeA, (pyLookup w storeA.REV_INDEX).isSome = true) ∧
      (searchS storeA "cat").2 = storeA :=
  ⟨by decide,
    c9_query_leaves_store_unchanged storeA "cat" (by decide) (by decide) (by decide)⟩
